import Mathlib

/-!
A verification development for the mergebot deployment coordinator.

The definitions below are a shallow embedding of the program's data model
and operations: the job state machine and its store (`src/job/mod.rs`,
`src/job/store/impl.rs`), the approval engine (`src/job/mod.rs`,
`src/deploy/app.rs`), the executor's per-repo git pipeline
(`src/job/exec/impl.rs`), the two `upstream` implementations
(`src/git/mod.rs`, `src/git/impl/repo_context.rs`) and the HTTP command /
approval handlers (`src/main.rs`).

Machine-level details irrelevant to the verified claims are abstracted:
`HashMap` buckets become association lists keyed by the job id string,
`DateTime<Utc>` becomes a `Nat` timestamp, and git process output becomes
plain strings.
-/

set_option autoImplicit false

namespace Mergebot

/-- Lowercasing of a string, modelled character-wise over `String.data`
(Rust `str::to_lowercase`; the configured names are ASCII). -/
def lowerStr (s : String) : String :=
  ⟨s.data.map Char.toLower⟩

/-- Whitespace-trimming of a string, modelled over `String.data`
(Rust `str::trim`): drop leading and trailing whitespace characters. -/
def trimStr (s : String) : String :=
  ⟨((s.data.dropWhile Char.isWhitespace).reverse.dropWhile Char.isWhitespace).reverse⟩

/-- Case-insensitive, whitespace-trimmed string comparison
(`loose_eq` in `src/main.rs` and `StrExtra::loose_eq` in `src/extra/str.rs`). -/
def looseEq (a b : String) : Bool :=
  lowerStr (trimStr a) == lowerStr (trimStr b)

/-- A principal: a single user or a group (`deploy::User` in `src/deploy/app.rs`). -/
inductive User where
  | user (user_id : String) (approver : Bool)
  | group (group_id : String) (min_approvers : Nat)
  deriving DecidableEq, Repr

/-- `deploy::Mergeable` (an environment) from `src/deploy/app.rs`. -/
structure Mergeable where
  name : String
  base : String
  target : String
  users : List User
  deriving DecidableEq, Repr

/-- `Mergeable::name_eq` from `src/deploy/app.rs`. -/
def Mergeable.nameEq (m : Mergeable) (name : String) : Bool :=
  looseEq m.name name

/-- `deploy::Repo` from `src/deploy/app.rs`. -/
structure Repo where
  url : String
  name : String
  environments : List Mergeable
  deriving DecidableEq, Repr

/-- `deploy::App` from `src/deploy/app.rs`. -/
structure App where
  name : String
  team_id : String
  notification_channel_id : String
  repos : List Repo
  deriving DecidableEq, Repr

/-- `App::users` from `src/deploy/app.rs`: all users of every environment
(of every repo) whose name loosely matches `env_name`. -/
def App.users (app : App) (env_name : String) : List User :=
  ((app.repos.map (fun r => r.environments.filter (fun env => env.nameEq env_name))).flatten).flatMap
    (fun env => env.users)

/-- A parsed `/deploy` command (`deploy::Command` in `src/deploy/mod.rs`). -/
structure Command where
  app_name : String
  env_name : String
  user_id : String
  team_id : String
  deriving DecidableEq, Repr

/-- A slack message id (`slack::msg::Id`): an opaque channel/timestamp pair. -/
structure MsgId where
  channel : String
  ts : String
  deriving DecidableEq, Repr

/-- Job id (`job::Id` wraps a nanoid string). -/
abbrev JobId := String

/-- `job::Error` — an error a job can encounter deploying (wraps a git error;
the payload is abstracted to its message). -/
inductive JobError where
  | git (msg : String)
  deriving DecidableEq, Repr

/-- `job::StateInit` from `src/job/mod.rs`. -/
structure StateInit where
  msg_id : Option MsgId
  approved_by : List User
  deriving DecidableEq, Repr

/-- `job::StateApproved` from `src/job/mod.rs`. -/
structure StateApproved where
  prev : StateInit
  deriving DecidableEq, Repr

/-- `job::StateErrored` from `src/job/mod.rs`; `next_attempt` is a `Nat`
timestamp standing for `DateTime<Utc>`. -/
inductive StateErrored where
  | mk (prev : StateApproved) (prev_attempt : Option StateErrored)
       (next_attempt : Nat) (errs : List JobError)
  deriving Repr

/-- Projection for the `prev` field of `StateErrored`. -/
def StateErrored.prev : StateErrored → StateApproved
  | .mk p _ _ _ => p

/-- Projection for the `prev_attempt` field of `StateErrored`. -/
def StateErrored.prevAttempt : StateErrored → Option StateErrored
  | .mk _ pa _ _ => pa

/-- Projection for the `next_attempt` field of `StateErrored`. -/
def StateErrored.nextAttempt : StateErrored → Nat
  | .mk _ _ na _ => na

/-- Projection for the `errs` field of `StateErrored`. -/
def StateErrored.errs : StateErrored → List JobError
  | .mk _ _ _ es => es

/-- `job::StatePoisoned` from `src/job/mod.rs`. -/
structure StatePoisoned where
  prev : StateErrored
  deriving Repr

/-- `job::StateDone` from `src/job/mod.rs`. -/
inductive StateDone where
  | succeeded (prev : StateApproved)
  | succeededAfterRetry (prev : StateErrored)
  deriving Repr

/-- `job::Job<S>` from `src/job/mod.rs`. -/
structure Job (S : Type) where
  id : JobId
  state : S
  command : Command
  app : App

/-- `Job::map_state` from `src/job/mod.rs`. -/
def Job.mapState {S R : Type} (j : Job S) (f : S → R) : Job R :=
  { id := j.id, state := f j.state, command := j.command, app := j.app }

/-- The `Some` branch of the recursive helper `go` inside
`Job::<StateErrored>::flatten_errors` (`src/job/mod.rs`): push the attempt,
then recurse into `prev_attempt`. -/
def flattenGoSome (e : StateErrored) (errs : List StateErrored) : List StateErrored :=
  match e with
  | .mk p pa na es =>
      let errs := errs ++ [StateErrored.mk p pa na es]
      match pa with
      | some prev => flattenGoSome prev errs
      | none => errs

/-- The helper `go` inside `Job::<StateErrored>::flatten_errors`
(`src/job/mod.rs`). -/
def flattenGo : Option StateErrored → List StateErrored → List StateErrored
  | some e, errs => flattenGoSome e errs
  | none, errs => errs

/-- `Job::<StateErrored>::flatten_errors` from `src/job/mod.rs`: the seed list
already contains `self.state`, and `go` is called on `Some(self.state)`. -/
def Job.flattenErrors (j : Job StateErrored) : List StateErrored :=
  flattenGo (some j.state) [j.state]

/-- Number of attempts on an `Errored` chain: this attempt plus all the
attempts linked through `prev_attempt`. -/
def StateErrored.chainLen : StateErrored → Nat
  | .mk _ none _ _ => 1
  | .mk _ (some p) _ _ => p.chainLen + 1

/-- A state bucket of the store: an association list standing for
`HashMap<job::Id, Job<S>>`. -/
abbrev Bucket (S : Type) := List (JobId × Job S)

/-- `HashMap::get`: first entry with the given key. -/
def bucketGet {S : Type} (m : Bucket S) (k : JobId) : Option (Job S) :=
  (m.find? (fun p => p.1 == k)).map (·.2)

/-- `HashMap::remove`: drop the entry with the given key. -/
def bucketRemove {S : Type} (m : Bucket S) (k : JobId) : Bucket S :=
  m.filter (fun p => !(p.1 == k))

/-- `HashMap::insert`: add (or replace) the entry for the given key. -/
def bucketInsert {S : Type} (m : Bucket S) (k : JobId) (v : Job S) : Bucket S :=
  (k, v) :: bucketRemove m k

/-- `HashMap::get_mut` followed by a mutation of the entry. -/
def bucketModify {S : Type} (m : Bucket S) (k : JobId) (f : Job S → Job S) : Bucket S :=
  m.map (fun p => if p.1 == k then (p.1, f p.2) else p)

/-- `job::store::StoreData` from `src/job/store/impl.rs`: the five state
buckets. -/
structure StoreData where
  created : Bucket StateInit
  approved : Bucket StateApproved
  errored : Bucket StateErrored
  poison : Bucket StatePoisoned
  done : Bucket StateDone

/-- The empty store (`StoreData::new`). -/
def StoreData.empty : StoreData :=
  { created := [], approved := [], errored := [], poison := [], done := [] }

/-- `job::event::Event` from `src/job/event.rs`. -/
inductive Event where
  | created (j : Job StateInit)
  | approved (j : Job StateInit) (u : User)
  | fullyApproved (j : Job StateApproved)
  | errored (j : Job StateErrored)
  | poisoned (j : Job StatePoisoned)
  | done (j : Job StateDone)

/-- `Store::create` from `src/job/store/impl.rs`. The generated nanoid is a
parameter. Returns the new id, the new store and the dispatched events. -/
def Store.create (s : StoreData) (app : App) (command : Command) (freshId : JobId) :
    JobId × StoreData × List Event :=
  let job : Job StateInit := { id := freshId, state := { approved_by := [], msg_id := none },
                               command := command, app := app }
  (job.id, { s with created := bucketInsert s.created job.id job }, [Event.created job])

/-- `Store::notified` from `src/job/store/impl.rs`: attach a message id to an
`Init` job. No event is dispatched. -/
def Store.notified (s : StoreData) (job_id : JobId) (msg_id : MsgId) :
    Option JobId × StoreData × List Event :=
  match bucketGet s.created job_id with
  | none => (none, s, [])
  | some j =>
      (some j.id,
       { s with created := bucketModify s.created job_id
                  (fun jj => { jj with state := { jj.state with msg_id := some msg_id } }) },
       [])

/-- `Store::approved` from `src/job/store/impl.rs`: unconditionally push the
user onto `approved_by` of an `Init` job and dispatch `Approved`. -/
def Store.approvedBy (s : StoreData) (job_id : JobId) (user : User) :
    Option JobId × StoreData × List Event :=
  match bucketGet s.created job_id with
  | none => (none, s, [])
  | some j =>
      let j' : Job StateInit :=
        { j with state := { j.state with approved_by := j.state.approved_by ++ [user] } }
      (some j'.id,
       { s with created := bucketModify s.created job_id
                  (fun jj => { jj with state := { jj.state with approved_by := jj.state.approved_by ++ [user] } }) },
       [Event.approved j' user])

/-- `Store::fully_approved` from `src/job/store/impl.rs`: move `Init →
Approved` and dispatch `FullyApproved`. -/
def Store.fullyApproved (s : StoreData) (job_id : JobId) :
    Option JobId × StoreData × List Event :=
  match bucketGet s.created job_id with
  | none => (none, s, [])
  | some j =>
      let j' : Job StateApproved := j.mapState (fun st => { prev := st })
      (some job_id,
       { s with created := bucketRemove s.created job_id,
                approved := bucketInsert s.approved job_id j' },
       [Event.fullyApproved j'])

/-- `Store::state_poisoned` from `src/job/store/impl.rs`: move `Errored →
Poisoned` and dispatch `Poisoned`. -/
def Store.statePoisoned (s : StoreData) (job_id : JobId) :
    Option JobId × StoreData × List Event :=
  match bucketGet s.errored job_id with
  | none => (none, s, [])
  | some j =>
      let j' : Job StatePoisoned := j.mapState (fun prev => { prev := prev })
      (some job_id,
       { s with errored := bucketRemove s.errored job_id,
                poison := bucketInsert s.poison job_id j' },
       [Event.poisoned j'])

/-- `Store::state_errored` from `src/job/store/impl.rs`. Both the `errored`
and `approved` buckets are popped; an `Errored → Errored` transition links the
prior attempt in. When the flattened attempt list is longer than 4 the job is
NOT re-inserted and `state_poisoned` is called on the store as it stands
(i.e. with the job in neither bucket); otherwise the job is re-inserted into
`errored` and `Errored` is dispatched. `now` stands for `Utc::now()`. -/
def Store.stateErrored (s : StoreData) (job_id : JobId) (errs : List JobError) (now : Nat) :
    Option JobId × StoreData × List Event :=
  let next_attempt := now + 10
  let erroredJ := (bucketGet s.errored job_id).map
      (fun j => j.mapState (fun e => StateErrored.mk e.prev (some e) next_attempt errs))
  let approvedJ := (bucketGet s.approved job_id).map
      (fun j => j.mapState (fun a => StateErrored.mk a none next_attempt errs))
  let s1 : StoreData := { s with errored := bucketRemove s.errored job_id,
                                 approved := bucketRemove s.approved job_id }
  match erroredJ.orElse (fun _ => approvedJ) with
  | none => (none, s1, [])
  | some j =>
      if j.flattenErrors.length > 4 then
        let r := Store.statePoisoned s1 j.id
        (some job_id, r.2.1, r.2.2)
      else
        (some job_id, { s1 with errored := bucketInsert s1.errored job_id j },
         [Event.errored j])

/-- `Store::state_done` from `src/job/store/impl.rs`: move `Approved → Done`
(success first try) or `Errored → Done` (success after retry), preferring the
`approved` bucket, and dispatch `Done`. -/
def Store.stateDone (s : StoreData) (job_id : JobId) :
    Option JobId × StoreData × List Event :=
  let retried := (bucketGet s.errored job_id).map
      (fun j => j.mapState StateDone.succeededAfterRetry)
  let succeeded := (bucketGet s.approved job_id).map
      (fun j => j.mapState StateDone.succeeded)
  let s1 : StoreData := { s with errored := bucketRemove s.errored job_id,
                                 approved := bucketRemove s.approved job_id }
  match succeeded.orElse (fun _ => retried) with
  | none => (none, s1, [])
  | some j =>
      (some job_id, { s1 with done := bucketInsert s1.done job_id j }, [Event.done j])

/-- `Context::upstream` from `src/git/mod.rs` (lines 157–163), as a function
of the raw stdout of `git config --get branch.<branch>.remote` and the branch
name: `format!("{}/{}", remote, branch)` on the raw output. -/
def upstreamMod (output branch : String) : String :=
  output ++ "/" ++ branch

/-- Rust `str::strip_suffix('\n')` followed by `unwrap_or(original)`: remove
one trailing newline if present. -/
def stripNewlineSuffix (s : String) : String :=
  match s.data.getLast? with
  | some c => if c = '\n' then ⟨s.data.dropLast⟩ else s
  | none => s

/-- `RepoContext::upstream` from `src/git/impl/repo_context.rs` (lines
31–40): strip one trailing newline from the raw output, then
`format!("{}/{}", remote, branch)`. -/
def upstreamImpl (output branch : String) : String :=
  stripNewlineSuffix output ++ "/" ++ branch

/-- A repo-context git operation (the `RepoContext` trait surface in
`src/git/mod.rs`). -/
inductive GitOp where
  | fetchAll
  | switch (branch : String)
  | updateBranch
  | upstreamQuery (branch : String)
  | merge (branch : String)
  | push
  deriving DecidableEq, Repr

/-- The per-repo pipeline of `exec` from `src/job/exec/impl.rs` (lines
52–64), as the sequence of repo-context operations it performs when every
operation succeeds: fetch all, switch to the environment's base, update it,
resolve the target's upstream, merge that upstream into the current (base)
branch, push. `remote` is the remote name the upstream query resolves to. -/
def execRepoOps (remote : String) (env : Mergeable) : List GitOp :=
  [ .fetchAll, .switch env.base, .updateBranch,
    .upstreamQuery env.target, .merge (remote ++ "/" ++ env.target), .push ]

/-- The whole-job trace of `exec` from `src/job/exec/impl.rs`: for each repo
of the app, in order, look up the environment matching the command's
environment name (the `expect` there is modelled as `none`) and run the
per-repo pipeline. -/
def execJobTrace (remote : String) (app : App) (env_name : String) :
    List (Option (List GitOp)) :=
  app.repos.map (fun r =>
    (r.environments.find? (fun env => env.nameEq env_name)).map (execRepoOps remote))

/-- Helper for `dedupAdj`: drop elements equal to the last kept element. -/
def dedupAdjGo (prev : User) : List User → List User
  | [] => []
  | b :: rest => if b = prev then dedupAdjGo prev rest else b :: dedupAdjGo b rest

/-- Rust `Vec::dedup`: remove consecutive duplicate elements, keeping the
first of each run. -/
def dedupAdj : List User → List User
  | [] => []
  | a :: rest => a :: dedupAdjGo a rest

/-- `Job::<StateInit>::outstanding_approvers` from `src/job/mod.rs` (lines
176–190): all users of the app's matching environments that have not
approved, with consecutive duplicates removed. -/
def Job.outstandingApprovers (j : Job StateInit) : List User :=
  dedupAdj ((j.app.users j.command.env_name).filter
    (fun u => j.state.approved_by.all (fun a => !(decide (a = u)))))

/-- Modelled from the spec: the enum-state `job::State` used by the queue
generation of the code (`src/main.rs`, `src/job/queue.rs`,
`src/job/exec/impl.rs` pattern-match `Initiated`, `Notified`, `Approved`,
`WorkQueued`, `Errored`, `Done`; the full enum definition is not under
`src/`). Payloads follow §3 of the spec and the fields those matches use. -/
inductive QState where
  | initiated
  | notified (msg_id : MsgId) (approved_by : List User)
  | approved (msg_id : MsgId) (approved_by : List User)
  | workQueued
  | errored (attempts : Nat) (next_attempt : Nat) (errs : List JobError)
  | done
  | poisoned
  deriving DecidableEq, Repr

/-- The queue-generation `job::Job` (`src/job/queue.rs`): a job with an
enum state. -/
structure QJob where
  id : String
  state : QState
  command : Command
  app : App
  deriving DecidableEq, Repr

/-- `MemQueue::lookup` from `src/job/queue.rs`. -/
def queueLookup (q : List QJob) (id : String) : Option QJob :=
  q.find? (fun j => j.id == id)

/-- `MemQueue::set_state` from `src/job/queue.rs`: update the state of the
matching job in place; yields the updated job copy and the new queue, or
`none` when no job matches. -/
def queueSetState (q : List QJob) (id : String) (st : QState) :
    Option (QJob × List QJob) :=
  (queueLookup q id).map (fun j =>
    ({ j with state := st },
     q.map (fun jj => if jj.id == id then { jj with state := st } else jj)))

/-- `MemQueue::queue` from `src/job/queue.rs`: push a new `Initiated` job at
the back. The generated nanoid is a parameter. -/
def queuePush (q : List QJob) (app : App) (cmd : Command) (freshId : String) :
    QJob × List QJob :=
  let job : QJob := { id := freshId, state := .initiated, app := app, command := cmd }
  (job, q ++ [job])

/-- Modelled from the spec: `approved_by` as the queue-generation handlers
read it — the list carried by the `Notified`/`Approved` payloads (empty in
the other states). -/
def QState.approvedBy : QState → List User
  | .notified _ l => l
  | .approved _ l => l
  | _ => []

/-- `outstanding_approvers` for a queue-generation job, the algorithm of
`Job::<StateInit>::outstanding_approvers` (`src/job/mod.rs`) reading
`approved_by` from the enum state. -/
def QJob.outstandingApprovers (j : QJob) : List User :=
  dedupAdj ((j.app.users j.command.env_name).filter
    (fun u => j.state.approvedBy.all (fun a => !(decide (a = u)))))

/-- Outcome of the duplicate-job check in `handle_command`. -/
inductive CommandOutcome where
  | rejectedAlreadyQueued (existing : QJob)
  | createdJob (id : String)
  deriving DecidableEq, Repr

/-- The job-creation step of `handle_command` from `src/main.rs` (lines
409–424): reject with `JobAlreadyQueued` when some queued job has the same
app and a loosely-equal environment name — with no condition on its state —
otherwise push a new job. -/
def handleCommandCheck (queue : List QJob) (app : App) (cmd : Command) (freshId : String) :
    CommandOutcome × List QJob :=
  match queue.find? (fun j => decide (j.app = app) && looseEq j.command.env_name cmd.env_name) with
  | some jb => (.rejectedAlreadyQueued jb, queue)
  | none => ((.createdJob freshId), (queuePush queue app cmd freshId).2)

/-- A side effect of `handle_approval` (`src/main.rs`): a chat message or a
scheduling call. -/
inductive AdapterAction where
  | sendJobApproved (j : QJob)
  | scheduleExec (j : QJob)
  deriving DecidableEq, Repr

/-- The principal-match predicate inside `handle_approval` (`src/main.rs`
lines 267–274): a single user matches on id; a group matches when the
expanded group contains the reacting user. -/
def approverMatches (groups : String → List String) (user_id : String) : User → Bool
  | .user uid _ => uid == user_id
  | .group gid _ => (groups gid).contains user_id

/-- `handle_approval` from `src/main.rs` (lines 264–320). `groups` stands for
`slack_groups.expand` (an `Err` there is collapsed to the empty list by
`unwrap_or_default`, so a total function is faithful). Yields the new queue
and the attempted side effects; `none` models the `expect`/`unreachable!`
panics. -/
def handleApproval (groups : String → List String) (queue : List QJob) (job : QJob)
    (user_id : String) : Option (List QJob × List AdapterAction) :=
  let need := job.outstandingApprovers
  match need.find? (approverMatches groups user_id) with
  | none => some (queue, [])
  | some user =>
      match queueLookup queue job.id with
      | none => none
      | some cur =>
          let new_state :=
            match cur.state with
            | .notified m l => QState.notified m (l ++ [user])
            | s => s
          match queueSetState queue job.id new_state with
          | none => none
          | some (job', queue') =>
              if job'.outstandingApprovers.isEmpty then
                match new_state with
                | .notified m l =>
                    match queueSetState queue' job.id (QState.approved m l) with
                    | none => none
                    | some (job'', queue'') =>
                        some (queue'', [.sendJobApproved job'', .scheduleExec job''])
                | _ => none
              else some (queue', [])

/-! Concrete fixtures used by the witnesses and counterexamples. -/

/-- A minimal app fixture. -/
def appX : App :=
  { name := "foo", team_id := "T1", notification_channel_id := "C0", repos := [] }

/-- A command fixture matching `appX`. -/
def cmdX : Command :=
  { app_name := "foo", env_name := "staging", user_id := "U1", team_id := "T1" }

/-- An execution-error fixture. -/
def err1 : JobError := .git "merge failed"

/-- The store after creating job `"J"` for `appX` and fully approving it,
then issuing `n` consecutive `state_errored` calls on it. -/
def runErrors : Nat → StoreData
  | 0 => (Store.fullyApproved (Store.create StoreData.empty appX cmdX "J").2.1 "J").2.1
  | n + 1 => (Store.stateErrored (runErrors n) "J" [err1] (100 * (n + 1))).2.1

/-- The full result (returned id, store, events) of the `(n+1)`-st
`state_errored` call in the `runErrors` scenario. -/
def nthErrCall (n : Nat) : Option JobId × StoreData × List Event :=
  Store.stateErrored (runErrors n) "J" [err1] (100 * (n + 1))

/-- How many of the five buckets contain the given job id. -/
def bucketCount (s : StoreData) (id : JobId) : Nat :=
  (cond (bucketGet s.created id).isSome 1 0)
    + (cond (bucketGet s.approved id).isSome 1 0)
    + (cond (bucketGet s.errored id).isSome 1 0)
    + (cond (bucketGet s.poison id).isSome 1 0)
    + (cond (bucketGet s.done id).isSome 1 0)

/-- A single-user approver principal. -/
def u1 : User := .user "U1" true

/-- A group principal. -/
def g1 : User := .group "G1" 1

/-- A single user with `approver = false`. -/
def u2f : User := .user "U2" false

/-- The staging environment of the first repo of `appC5`. -/
def envA : Mergeable := { name := "staging", base := "qa", target := "staging", users := [u1, g1] }

/-- The staging environment of the second repo of `appC5`. -/
def envB : Mergeable := { name := "staging", base := "qa", target := "staging", users := [u1, u2f] }

/-- A two-repo app whose staging rosters share `u1` and include a
non-approver user. -/
def appC5 : App :=
  { name := "foo", team_id := "T1", notification_channel_id := "C0",
    repos := [ { url := "ssh://a", name := "a", environments := [envA] },
               { url := "ssh://b", name := "b", environments := [envB] } ] }

/-- A fresh `Init` job for `appC5` with nobody approved yet. -/
def jobC5 : Job StateInit :=
  { id := "J", state := { msg_id := none, approved_by := [] }, command := cmdX, app := appC5 }

/-- A one-repo environment fixture for the executor trace. -/
def envC4 : Mergeable := { name := "staging", base := "qa", target := "staging", users := [] }

/-- A one-repo app fixture for the executor trace. -/
def appC4 : App :=
  { name := "foo", team_id := "T1", notification_channel_id := "C0",
    repos := [ { url := "ssh://r", name := "r", environments := [envC4] } ] }

/-- The store holding exactly the freshly created job `"J"` for `appX`. -/
def s6 : StoreData := (Store.create StoreData.empty appX cmdX "J").2.1

/-- The `Init` job that `Store.create` puts into `s6`. -/
def jobX : Job StateInit :=
  { id := "J", state := { approved_by := [], msg_id := none }, command := cmdX, app := appX }

/-- A queued job for `appX`/staging that already reached the `Done` state. -/
def doneJob : QJob := { id := "J0", state := .done, command := cmdX, app := appX }

/-- A one-repo app whose staging roster is just the single approver `u1`. -/
def appW : App :=
  { name := "foo", team_id := "T1", notification_channel_id := "C0",
    repos := [ { url := "ssh://r", name := "r",
                 environments := [ { name := "staging", base := "qa", target := "staging",
                                     users := [u1] } ] } ] }

/-- A notified job for `appW` that `u1` has already approved. -/
def jobW : QJob :=
  { id := "J", state := .notified ⟨"chan", "111.222"⟩ [u1], command := cmdX, app := appW }

/-- A group-expansion oracle with no groups configured. -/
def groups0 : String → List String := fun _ => []

/-- Does the string end with a newline character? -/
def endsWithNewline (s : String) : Bool :=
  match s.data.getLast? with
  | some c => c == '\n'
  | none => false

/-! Helper lemmas about the bucket operations and `dedupAdj`. -/

theorem bucketGet_cons {S : Type} (p : JobId × Job S) (t : Bucket S) (k : JobId) :
    bucketGet (p :: t) k = if p.1 == k then some p.2 else bucketGet t k := by
  cases h : (p.1 == k) <;> simp [bucketGet, List.find?, h]

theorem bucketGet_bucketModify {S : Type} (m : Bucket S) (k : JobId) (f : Job S → Job S) :
    bucketGet (bucketModify m k f) k = (bucketGet m k).map f := by
  induction m with
  | nil => rfl
  | cons p t ih =>
      simp only [bucketModify, List.map_cons] at ih ⊢
      rw [bucketGet_cons, bucketGet_cons]
      cases h : (p.1 == k) with
      | true => simp [h]
      | false => simp [h]; simpa using ih

theorem bucketRemove_eq_self {S : Type} (m : Bucket S) (k : JobId)
    (h : bucketGet m k = none) : bucketRemove m k = m := by
  induction m with
  | nil => rfl
  | cons p t ih =>
      rw [bucketGet_cons] at h
      cases hb : (p.1 == k) with
      | true => simp [hb] at h
      | false =>
          simp only [hb, Bool.false_eq_true, if_false] at h
          simp only [bucketRemove, List.filter_cons, hb, Bool.not_false, if_true]
          simp only [bucketRemove] at ih
          rw [ih h]

theorem mem_dedupAdjGo_sub {u prev : User} {l : List User}
    (h : u ∈ dedupAdjGo prev l) : u ∈ l := by
  induction l generalizing prev with
  | nil => simp [dedupAdjGo] at h
  | cons b rest ih =>
      by_cases hb : b = prev
      · simp [dedupAdjGo, hb] at h
        exact List.mem_cons_of_mem _ (ih h)
      · simp [dedupAdjGo, hb] at h
        rcases h with h | h
        · exact h ▸ List.mem_cons_self _ _
        · exact List.mem_cons_of_mem _ (ih h)

theorem mem_dedupAdjGo {u prev : User} (l : List User) (hne : u ≠ prev) :
    u ∈ dedupAdjGo prev l ↔ u ∈ l := by
  induction l generalizing prev with
  | nil => simp [dedupAdjGo]
  | cons b rest ih =>
      by_cases hb : b = prev
      · subst hb
        simp [dedupAdjGo, ih hne]
        intro h
        exact absurd h hne
      · simp [dedupAdjGo, hb]
        by_cases hub : u = b
        · subst hub; simp
        · simp [hub, ih hub]

theorem mem_dedupAdj (u : User) (l : List User) : u ∈ dedupAdj l ↔ u ∈ l := by
  cases l with
  | nil => simp [dedupAdj]
  | cons a rest =>
      by_cases hua : u = a
      · subst hua; simp [dedupAdj]
      · simp [dedupAdj, hua, mem_dedupAdjGo rest hua]

/-! The claims. -/

/-- C1: the claim says the fourth `state_errored` call leaves the job
`Errored` and only the fifth moves it to `Poisoned`. In the code,
`flatten_errors` counts the current attempt twice, so after three failures
the stored chain has 3 attempts but flattens to length 4; the FOURTH call
therefore takes the over-threshold branch — and that branch removes the job
from its bucket without re-inserting it, so the inner `state_poisoned` finds
nothing: after the fourth call the job is in no bucket at all (in particular
not `Errored`), and a fifth call returns `None`. -/
theorem c1_fourth_failure_drops_job :
    ((bucketGet (runErrors 3).errored "J").map (fun j => j.state.chainLen)) = some 3
    ∧ ((bucketGet (runErrors 3).errored "J").map (fun j => j.flattenErrors.length)) = some 4
    ∧ (nthErrCall 3).1 = some "J"
    ∧ bucketCount (runErrors 4) "J" = 0
    ∧ (nthErrCall 4).1 = none := by decide

/-- C2: the claim says every job present in the store sits in exactly one
bucket after every operation. Along the reachable run
create → fully_approved → state_errored⁴ the job is in exactly one bucket up
to the third failure, but the fourth `state_errored` call (which itself
returns `Some`) leaves the job in ZERO buckets: the over-threshold branch
removes it and the inner `state_poisoned` cannot find it. -/
theorem c2_bucket_exclusivity_violated :
    bucketCount (runErrors 0) "J" = 1
    ∧ bucketCount (runErrors 1) "J" = 1
    ∧ bucketCount (runErrors 3) "J" = 1
    ∧ (nthErrCall 3).1 = some "J"
    ∧ bucketCount (runErrors 4) "J" = 0 := by decide

/-- C3: the claim says an over-threshold failure leaves the job in the
`Poisoned` bucket and dispatches exactly one `Poisoned` event. On the fourth
failure the job the code builds flattens to length 5 > 4 (the claim's
trigger), yet the call dispatches NO event at all and the job lands in no
bucket (the within-threshold calls each dispatch exactly one event, their
`Errored`). -/
theorem c3_over_threshold_failure_emits_nothing :
    ((bucketGet (runErrors 3).errored "J").map
        (fun j => (j.mapState (fun e => StateErrored.mk e.prev (some e) 410 [err1])).flattenErrors.length))
      = some 5
    ∧ (nthErrCall 3).1 = some "J"
    ∧ ((nthErrCall 3).2.2).length = 0
    ∧ (bucketGet ((nthErrCall 3).2.1).poison "J").isSome = false
    ∧ ((nthErrCall 2).2.2).length = 1 := by decide

/-- C4: the claim (and the S1 scenario of the spec) expects the per-repo
sequence fetchAll, switch(base), updateBranch, switch(target), updateBranch,
merge(base), push — the commit landing on `target`. The code's `exec`
instead performs fetchAll, switch(base), updateBranch, then resolves the
TARGET's upstream and merges it into the still-checked-out BASE branch, then
pushes: it never switches to `target`, and the merged-into branch is `base`. -/
theorem c4_exec_merges_target_upstream_into_base :
    execJobTrace "origin" appC4 "staging" = [some (execRepoOps "origin" envC4)]
    ∧ execRepoOps "origin" envC4
        = [.fetchAll, .switch "qa", .updateBranch, .upstreamQuery "staging",
           .merge "origin/staging", .push]
    ∧ execRepoOps "origin" envC4
        ≠ [.fetchAll, .switch "qa", .updateBranch, .switch "staging",
           .updateBranch, .merge "qa", .push] := by decide

/-- C5 counterexample: for a job over `appC5` (two repos, rosters
`[u1, g1]` and `[u1, u2f]`, nobody approved) the claim predicts
`[u1, g1]` — single users kept only with `approver = true`, fully
de-duplicated. The code keeps the non-approver `u2f` and only removes
consecutive duplicates, returning `[u1, g1, u1, u2f]`. -/
theorem c5_outstanding_approvers_counterexample :
    Job.outstandingApprovers jobC5 = [u1, g1, u1, u2f]
    ∧ u2f ∈ Job.outstandingApprovers jobC5
    ∧ ¬ (Job.outstandingApprovers jobC5).Nodup := by decide

/-- C5 amended: `outstanding_approvers` returns the principals listed across
all repos of the job's app in environments matching the command's
environment name (case-insensitive, trimmed) — groups AND single users
regardless of the `approver` flag — minus the principals already in
`approved_by`; only consecutive duplicates are removed, so as a set the
result is exactly the matching roster minus `approved_by`. -/
theorem c5_outstanding_approvers_amended (j : Job StateInit) (u : User) :
    u ∈ j.outstandingApprovers
      ↔ u ∈ j.app.users j.command.env_name ∧ u ∉ j.state.approved_by := by
  unfold Job.outstandingApprovers
  rw [mem_dedupAdj, List.mem_filter]
  constructor
  · rintro ⟨hm, hall⟩
    refine ⟨hm, fun hmem => ?_⟩
    rw [List.all_eq_true] at hall
    have := hall u hmem
    simp at this
  · rintro ⟨hm, hnot⟩
    refine ⟨hm, ?_⟩
    rw [List.all_eq_true]
    intro a ha
    simp only [Bool.not_eq_true', decide_eq_false_iff_not]
    intro heq
    exact hnot (heq ▸ ha)

/-- C6 counterexample: create a job and call `Store::approved` twice with
the same principal — the second call appends again; `approved_by` ends as
`[u1, u1]`, refuting the claim that the second call does not append. -/
theorem c6_approved_duplicates_counterexample :
    ((bucketGet (Store.approvedBy (Store.approvedBy s6 "J" u1).2.1 "J" u1).2.1.created "J").map
        (fun j => j.state.approved_by)) = some [u1, u1] := by decide

/-- C6 amended: `Store::approved` is unguarded — whenever the job is in the
`Init` bucket, the call appends the principal unconditionally, so
`approved_by` becomes the old list with the principal appended (whether or
not it already occurs). Duplicate-freedom is the HTTP adapter's concern, not
the store's. -/
theorem c6_approved_appends_amended (s : StoreData) (id : JobId) (u : User) (j : Job StateInit)
    (h : bucketGet s.created id = some j) :
    ((bucketGet (Store.approvedBy s id u).2.1.created id).map (fun jj => jj.state.approved_by))
      = some (j.state.approved_by ++ [u]) := by
  unfold Store.approvedBy
  rw [h]
  simp [bucketGet_bucketModify, h]

/-- Witness for the C6 amended theorem at the freshly created job `"J"`. -/
theorem c6_approved_appends_amended_witness :
    ((bucketGet (Store.approvedBy s6 "J" u1).2.1.created "J").map (fun jj => jj.state.approved_by))
      = some (jobX.state.approved_by ++ [u1]) :=
  c6_approved_appends_amended s6 "J" u1 jobX (by rfl)

/-- C7 counterexample: the claim says a command whose only existing job for
the app/environment is terminal (`Done`) creates a new job. With a queue
holding exactly one `Done` job for `appX`/staging, `handle_command` still
rejects with `JobAlreadyQueued` — its duplicate check has no condition on
the job's state. -/
theorem c7_done_job_blocks_counterexample :
    (handleCommandCheck [doneJob] appX cmdX "J1").1 = .rejectedAlreadyQueued doneJob
    ∧ doneJob.state = QState.done := by decide

/-- C7 amended: the HTTP command handler rejects with `JobAlreadyQueued`
exactly when SOME existing job has the same app and a loosely-equal
(case-insensitive, trimmed) environment name, regardless of that job's
state; only an empty match creates a new job. -/
theorem c7_reject_iff_existing_amended (queue : List QJob) (app : App) (cmd : Command)
    (freshId : String) :
    (∃ jb, (handleCommandCheck queue app cmd freshId).1 = .rejectedAlreadyQueued jb)
      ↔ ∃ j ∈ queue, j.app = app ∧ looseEq j.command.env_name cmd.env_name = true := by
  unfold handleCommandCheck
  cases hf : queue.find? (fun j => decide (j.app = app) && looseEq j.command.env_name cmd.env_name) with
  | none =>
      rw [List.find?_eq_none] at hf
      constructor
      · rintro ⟨jb, hjb⟩
        exact absurd hjb (by simp)
      · rintro ⟨j, hj, hja, hje⟩
        have := hf j hj
        simp [hja, hje] at this
  | some jb =>
      have hm := List.mem_of_find?_eq_some hf
      have hp := List.find?_some hf
      simp only [Bool.and_eq_true, decide_eq_true_eq] at hp
      constructor
      · intro _
        exact ⟨jb, hm, hp.1, hp.2⟩
      · intro _
        exact ⟨jb, rfl⟩

/-- C8: every transition method, called on a job id that is not in a bucket
the transition accepts, returns `None`, leaves the store exactly as it was
and dispatches no event. -/
theorem c8_transitions_noop_when_absent (s : StoreData) (id : JobId) (m : MsgId) (u : User)
    (errs : List JobError) (now : Nat) :
    (bucketGet s.created id = none →
       Store.notified s id m = (none, s, [])
       ∧ Store.approvedBy s id u = (none, s, [])
       ∧ Store.fullyApproved s id = (none, s, []))
    ∧ (bucketGet s.errored id = none → Store.statePoisoned s id = (none, s, []))
    ∧ (bucketGet s.errored id = none → bucketGet s.approved id = none →
       Store.stateErrored s id errs now = (none, s, [])
       ∧ Store.stateDone s id = (none, s, [])) := by
  refine ⟨fun h => ⟨?_, ?_, ?_⟩, fun h => ?_, fun he ha => ⟨?_, ?_⟩⟩
  · simp [Store.notified, h]
  · simp [Store.approvedBy, h]
  · simp [Store.fullyApproved, h]
  · simp [Store.statePoisoned, h]
  · simp [Store.stateErrored, he, ha, bucketRemove_eq_self, Option.orElse]
  · simp [Store.stateDone, he, ha, bucketRemove_eq_self, Option.orElse]

/-- Witness for C8 at the empty store and an absent job id. -/
theorem c8_transitions_noop_witness :
    Store.notified StoreData.empty "x" ⟨"c", "1.2"⟩ = (none, StoreData.empty, [])
    ∧ Store.stateDone StoreData.empty "x" = (none, StoreData.empty, []) :=
  ⟨((c8_transitions_noop_when_absent StoreData.empty "x" ⟨"c", "1.2"⟩ u1 [] 0).1 rfl).1,
   ((c8_transitions_noop_when_absent StoreData.empty "x" ⟨"c", "1.2"⟩ u1 [] 0).2.2 rfl rfl).2⟩

/-- C9: when the reacting user matches none of the job's outstanding
approvers (single users by id, groups by membership), `handle_approval`
leaves the queue untouched and attempts no message or scheduling call. -/
theorem c9_no_matching_approver_is_noop (groups : String → List String) (queue : List QJob)
    (job : QJob) (user_id : String)
    (h : (QJob.outstandingApprovers job).find? (approverMatches groups user_id) = none) :
    handleApproval groups queue job user_id = some (queue, []) := by
  simp [handleApproval, h]

/-- Witness for C9: a single-user approver who has already approved (and no
configured groups) matches no outstanding approver, and the handler does
nothing. -/
theorem c9_no_matching_approver_witness :
    handleApproval groups0 [jobW] jobW "U1" = some ([jobW], []) :=
  c9_no_matching_approver_is_noop groups0 [jobW] jobW "U1" (by decide)

/-- C10 counterexample: on the raw output `"origin\n"` (what
`git config --get` actually prints) the two `upstream` implementations
disagree: `git/mod.rs` embeds the newline, `git/impl/repo_context.rs`
strips it. -/
theorem c10_upstream_newline_counterexample :
    upstreamMod "origin\n" "main" = "origin\n/main"
    ∧ upstreamImpl "origin\n" "main" = "origin/main"
    ∧ upstreamMod "origin\n" "main" ≠ upstreamImpl "origin\n" "main" := by decide

/-- C10 amended: the two `upstream` implementations agree exactly on outputs
that do not end in a newline; `RepoContext::upstream` additionally strips
one trailing newline before forming `"<remote>/<branch>"`. -/
theorem c10_upstream_agree_without_trailing_newline (output branch : String)
    (h : endsWithNewline output = false) :
    upstreamMod output branch = upstreamImpl output branch := by
  unfold upstreamMod upstreamImpl stripNewlineSuffix
  unfold endsWithNewline at h
  cases hl : output.data.getLast? with
  | none => rfl
  | some c =>
      rw [hl] at h
      have hc : ¬ (c = '\n') := by simpa using h
      simp [hc]

/-- Witness for C10 amended: newline-free output. -/
theorem c10_upstream_agree_witness :
    upstreamMod "origin" "main" = upstreamImpl "origin" "main" :=
  c10_upstream_agree_without_trailing_newline "origin" "main" (by decide)

end Mergebot
